import Mathlib

/-!
Shallow embedding of the Heart dating backend (`src/index.js`): the
swipe-to-match resolution engine and the match-scoped chat access layer.

The relational store is modelled as lists of rows (`swipes`, `matches`,
`messages`) together with the auto-increment counters the engine assigns
on INSERT.  Each HTTP handler becomes a function from a request body and a
database state to a response and a new state.  JSON body fields are
`Option`-valued (a missing field is `none`); JavaScript truthiness of a
numeric field is `n != 0` and of a string field is `s != ""`.  Response
bodies keep the fields the claims speak about (HTTP status, `matched`,
`matchId`); the human-readable Dutch `message` strings are dropped.
-/

namespace Heart

/-- A row of the `swipes` table (columns used by the handlers). -/
structure SwipeRow where
  swiper_id : Nat
  target_id : Nat
  direction : String
deriving DecidableEq, Repr

/-- A row of the `matches` table (columns used by the handlers). -/
structure MatchRow where
  id : Nat
  user1_id : Nat
  user2_id : Nat
deriving DecidableEq, Repr

/-- A row of the `messages` table (columns used by the handlers). -/
structure MessageRow where
  id : Nat
  match_id : Nat
  sender_id : Nat
  content : String
  sent_at : Nat
deriving DecidableEq, Repr

/-- The relational store: the three tables the core touches, plus the
auto-increment counters MySQL would use for `matches.id` and
`messages.id`. -/
structure DB where
  swipes : List SwipeRow
  «matches» : List MatchRow
  messages : List MessageRow
  nextMatchId : Nat
  nextMessageId : Nat
deriving DecidableEq, Repr

/-- `orderPair` from src/index.js lines 68-70:
`Number(a) < Number(b) ? [Number(a), Number(b)] : [Number(b), Number(a)]`. -/
def orderPair (a b : Nat) : Nat × Nat :=
  if a < b then (a, b) else (b, a)

/-- JavaScript truthiness of an optional numeric JSON field:
`undefined` and `0` are falsy. -/
def truthyNum : Option Nat → Bool
  | none => false
  | some n => n != 0

/-- JavaScript truthiness of an optional string JSON field:
`undefined` and `""` are falsy. -/
def truthyStr : Option String → Bool
  | none => false
  | some s => s != ""

/-- `['left', 'right'].includes(direction)` (src/index.js line 355);
`includes(undefined)` is false. -/
def isValidDirection : Option String → Bool
  | none => false
  | some d => d == "left" || d == "right"

/-- Body of `POST /swipe`: `{ swiperId, targetId, direction }`. -/
structure SwipeReq where
  swiperId : Option Nat
  targetId : Option Nat
  direction : Option String
deriving DecidableEq, Repr

/-- Response of `POST /swipe`: HTTP status plus the `matched` and
`matchId` JSON fields (absent fields are `none`). -/
structure SwipeResp where
  status : Nat
  matched : Option Bool
  matchId : Option Nat
deriving DecidableEq, Repr

/-- `INSERT INTO swipes (swiper_id, target_id, direction) VALUES (?, ?, ?)`
(src/index.js lines 363-366). -/
def insertSwipe (s t : Nat) (dir : String) (db : DB) : DB :=
  { db with swipes := db.swipes ++ [⟨s, t, dir⟩] }

/-- `SELECT id FROM swipes WHERE swiper_id = ? AND target_id = ? AND
direction = ? LIMIT 1` with parameters `[targetId, swiperId, 'right']`
(src/index.js lines 370-373), reduced to the emptiness test
`reverse.length` the handler performs. -/
def reverseRightExists (s t : Nat) (db : DB) : Bool :=
  db.swipes.any fun r => r.swiper_id == t && r.target_id == s && r.direction == "right"

/-- `SELECT id FROM matches WHERE (user1_id = ? AND user2_id = ?) LIMIT 1`
(src/index.js lines 378-381): the id of the first matching row, if any. -/
def findMatch (u1 u2 : Nat) (db : DB) : Option Nat :=
  (db.«matches».find? fun m => m.user1_id == u1 && m.user2_id == u2).map (fun m => m.id)

/-- `INSERT INTO matches (user1_id, user2_id) VALUES (?, ?)`
(src/index.js lines 384-387): returns `insertId` and the new state. -/
def insertMatch (u1 u2 : Nat) (db : DB) : Nat × DB :=
  (db.nextMatchId,
   { db with «matches» := db.«matches» ++ [⟨db.nextMatchId, u1, u2⟩],
             nextMatchId := db.nextMatchId + 1 })

/-- The `POST /swipe` handler (src/index.js lines 352-403), sequential
semantics: validation, self-swipe rejection, unconditional ledger insert,
reciprocity check on `right`, then check-then-insert match creation. -/
def postSwipe (req : SwipeReq) (db : DB) : SwipeResp × DB :=
  if !(truthyNum req.swiperId) || !(truthyNum req.targetId) || !(isValidDirection req.direction) then
    (⟨400, none, none⟩, db)
  else
    let s := req.swiperId.getD 0
    let t := req.targetId.getD 0
    let dir := req.direction.getD ""
    if s == t then
      (⟨400, none, none⟩, db)
    else
      let db1 := insertSwipe s t dir db
      if dir == "right" then
        if reverseRightExists s t db1 then
          let u := orderPair s t
          match findMatch u.1 u.2 db1 with
          | none =>
            let r := insertMatch u.1 u.2 db1
            (⟨200, some true, some r.1⟩, r.2)
          | some _ =>
            (⟨200, some true, none⟩, db1)
        else
          (⟨200, some false, none⟩, db1)
      else
        (⟨200, some false, none⟩, db1)

/-- `userInMatch` (src/index.js lines 73-79): `rows.length > 0` for
`SELECT id FROM matches WHERE id = ? AND (user1_id = ? OR user2_id = ?)
LIMIT 1`. -/
def userInMatch (matchId userId : Nat) (db : DB) : Bool :=
  db.«matches».any fun m => m.id == matchId && (m.user1_id == userId || m.user2_id == userId)

/-- Query string of `GET /messages`: `?matchId=&userId=`. -/
structure MsgsGetReq where
  matchId : Option Nat
  userId : Option Nat
deriving DecidableEq, Repr

/-- Outcome class of a `GET /messages` call: 400, 403 or 200. -/
inductive MsgsStatus where
  | badRequest
  | forbidden
  | ok
deriving DecidableEq, Repr

/-- Status logic of the `GET /messages` handler (src/index.js lines
434-453): 400 on missing fields, 403 when `userInMatch` denies, else
200. -/
def getMessagesStatus (req : MsgsGetReq) (db : DB) : MsgsStatus :=
  if !(truthyNum req.matchId) || !(truthyNum req.userId) then .badRequest
  else if !(userInMatch (req.matchId.getD 0) (req.userId.getD 0) db) then .forbidden
  else .ok

/-- `WHERE match_id = ?` row selection of the `GET /messages` query
(src/index.js line 445). -/
def msgsForMatch (matchId : Nat) (db : DB) : List MessageRow :=
  db.messages.filter fun r => r.match_id == matchId

/-- SQL contract of `ORDER BY sent_at ASC` (src/index.js line 445): the
result is some permutation of the selected rows that is non-decreasing in
`sent_at`.  SQL specifies no tiebreak among rows with equal sort keys, so
any such permutation is a permitted result. -/
def orderedBySentAt (pool rows : List MessageRow) : Prop :=
  rows.Perm pool ∧ rows.Sorted (fun a b => a.sent_at ≤ b.sent_at)

/-- A permitted 200 response body of `GET /messages`: the handler reached
the SELECT (status ok) and `rows` satisfies the `ORDER BY sent_at ASC`
contract on the match's messages. -/
def getMessagesBody (req : MsgsGetReq) (db : DB) (rows : List MessageRow) : Prop :=
  getMessagesStatus req db = .ok ∧
  orderedBySentAt (msgsForMatch (req.matchId.getD 0) db) rows

/-!
Interleaving semantics for concurrent `POST /swipe` requests.

Each in-flight right-swipe request is a thread that performs, one at a
time, the same four store operations the handler issues sequentially:
the swipe INSERT, the reverse-right SELECT, the match SELECT and the
match INSERT.  Between any two of a thread's operations another thread
may run, which is exactly what a connection-pooled Express server allows:
each `await db.getQuery(...)` is an atomic statement, and nothing groups
the statements of one request into a transaction.
-/

/-- A validated right-swipe request in flight: `s` swipes right on `t`. -/
structure SwipeCtx where
  s : Nat
  t : Nat
deriving DecidableEq, Repr

/-- Program counter of an in-flight right-swipe request, with the local
values (`reverse.length` outcome, match-SELECT outcome) it has read so
far. -/
inductive SwipePhase where
  | start
  | recorded
  | checkedReverse (found : Bool)
  | checkedMatch (found : Option Nat)
  | done (resp : SwipeResp)
deriving DecidableEq, Repr

/-- One atomic store operation of an in-flight right-swipe request,
mirroring the statements of the `POST /swipe` handler in order
(src/index.js lines 363, 370, 378, 384): a finished thread stays put. -/
def stepSwipe (c : SwipeCtx) : SwipePhase → DB → SwipePhase × DB
  | .start, db => (.recorded, insertSwipe c.s c.t "right" db)
  | .recorded, db => (.checkedReverse (reverseRightExists c.s c.t db), db)
  | .checkedReverse false, db => (.done ⟨200, some false, none⟩, db)
  | .checkedReverse true, db =>
      (.checkedMatch (findMatch (orderPair c.s c.t).1 (orderPair c.s c.t).2 db), db)
  | .checkedMatch (some _), db => (.done ⟨200, some true, none⟩, db)
  | .checkedMatch none, db =>
      let r := insertMatch (orderPair c.s c.t).1 (orderPair c.s c.t).2 db
      (.done ⟨200, some true, some r.1⟩, r.2)
  | .done resp, db => (.done resp, db)

/-- Let thread `i` of the pool perform its next atomic operation. -/
def stepThreadAt (i : Nat) (ts : List (SwipeCtx × SwipePhase)) (db : DB) :
    List (SwipeCtx × SwipePhase) × DB :=
  match ts.get? i with
  | none => (ts, db)
  | some (c, p) =>
      let r := stepSwipe c p db
      (ts.set i (c, r.1), r.2)

/-- Run a schedule: each entry names the thread that performs its next
atomic store operation. -/
def runSched : List Nat → List (SwipeCtx × SwipePhase) → DB → List (SwipeCtx × SwipePhase) × DB
  | [], ts, db => (ts, db)
  | i :: rest, ts, db =>
      let r := stepThreadAt i ts db
      runSched rest r.1 r.2

/-- Body of `POST /messages`: `{ matchId, senderId, content }`. -/
structure MsgsPostReq where
  matchId : Option Nat
  senderId : Option Nat
  content : Option String
deriving DecidableEq, Repr

/-- Response of `POST /messages`: 400, 403, or 201 with `messageId`. -/
inductive MsgsPostResp where
  | badRequest
  | forbidden
  | created (messageId : Nat)
deriving DecidableEq, Repr

/-- The `POST /messages` handler (src/index.js lines 456-476).  `now` is
the commit timestamp the store assigns to `sent_at`. -/
def postMessages (req : MsgsPostReq) (now : Nat) (db : DB) : MsgsPostResp × DB :=
  if !(truthyNum req.matchId) || !(truthyNum req.senderId) || !(truthyStr req.content) then
    (.badRequest, db)
  else
    let mid := req.matchId.getD 0
    let sid := req.senderId.getD 0
    let c := req.content.getD ""
    if !(userInMatch mid sid db) then
      (.forbidden, db)
    else
      (.created db.nextMessageId,
       { db with messages := db.messages ++ [⟨db.nextMessageId, mid, sid, c, now⟩],
                 nextMessageId := db.nextMessageId + 1 })

/-- A `matches` row stores the unordered user pair {a, b} (in either
column order). -/
def inPairB (m : MatchRow) (a b : Nat) : Bool :=
  (m.user1_id == a && m.user2_id == b) || (m.user1_id == b && m.user2_id == a)

/-- The Match-table invariant of the spec's data model: every row stores
its pair in canonical order (`user1_id < user2_id`, as `orderPair`
produces), and at most one row exists per unordered user pair. -/
def matchesInvariant (l : List MatchRow) : Prop :=
  (∀ m ∈ l, m.user1_id < m.user2_id) ∧
  ∀ a b : Nat, (l.filter fun m => inPairB m a b).length ≤ 1

/-- The invariant read on a store state. -/
def matchInvariant (db : DB) : Prop := matchesInvariant db.«matches»

/-- The ordering the SPEC claims for `GET /messages` results — ascending
`sentAt` with ascending `id` (insertion order) as tiebreak for equal
timestamps.  Stated from the spec's words, to be compared with the
query's actual `ORDER BY sent_at ASC` contract (`orderedBySentAt`). -/
def specOrderedSentAtThenId (rows : List MessageRow) : Prop :=
  rows.Sorted fun a b =>
    a.sent_at < b.sent_at ∨ (a.sent_at = b.sent_at ∧ a.id ≤ b.id)

/-!  ## Theorems about the claims  -/

/-- C4: `orderPair` is order-independent for distinct ids, and returns
the numerically smaller id first and the larger id second. -/
theorem orderPair_comm_min_max (a b : Nat) (hab : a ≠ b) :
    orderPair a b = orderPair b a ∧
    (orderPair a b).1 = min a b ∧ (orderPair a b).2 = max a b := by
  unfold orderPair
  rcases Nat.lt_or_ge a b with h | h
  · have hba : ¬ b < a := Nat.not_lt.mpr (Nat.le_of_lt h)
    simp [h, hba, Nat.min_def, Nat.max_def, Nat.le_of_lt h]
  · have hba : b < a := Nat.lt_of_le_of_ne h (fun e => hab e.symm)
    have hna : ¬ a < b := Nat.not_lt.mpr (Nat.le_of_lt hba)
    simp [hna, hba, Nat.min_def, Nat.max_def, Nat.not_le.mpr hba]

/-- Witness for C4 at ids 5 and 9. -/
theorem orderPair_comm_min_max_witness :
    orderPair 5 9 = orderPair 9 5 ∧ (orderPair 5 9).1 = min 5 9 ∧ (orderPair 5 9).2 = max 5 9 :=
  orderPair_comm_min_max 5 9 (by decide)

/-- C5: a self-swipe request (`swiperId = targetId`, including both
missing) is rejected with 400 and leaves the store untouched: no ledger
write, no match creation. -/
theorem postSwipe_self_rejected (req : SwipeReq) (db : DB)
    (h : req.swiperId = req.targetId) :
    postSwipe req db = (⟨400, none, none⟩, db) := by
  unfold postSwipe
  rcases hs : req.swiperId with _ | n
  · simp [truthyNum, h ▸ hs, hs]
  · rcases Nat.eq_zero_or_pos n with h0 | h0
    · simp [truthyNum, hs, h0]
    · have ht : req.targetId = some n := h ▸ hs
      rcases hd : req.direction with _ | d
      · simp [isValidDirection]
      · by_cases hv : (d == "left" || d == "right") = true
        · simp [truthyNum, hs, ht, isValidDirection, hv]
        · simp [truthyNum, hs, ht, isValidDirection, hv]

/-- Witness for C5: user 3 swiping right on user 3 gets 400 and the
empty store is unchanged. -/
theorem postSwipe_self_rejected_witness :
    postSwipe ⟨some 3, some 3, some "right"⟩ ⟨[], [], [], 1, 1⟩ =
      (⟨400, none, none⟩, ⟨[], [], [], 1, 1⟩) :=
  postSwipe_self_rejected ⟨some 3, some 3, some "right"⟩ ⟨[], [], [], 1, 1⟩ rfl

/-- C1: the match creation in `POST /swipe` is a separate existence check
followed by an insert, not an atomic find-or-create.  Interleaving two
concurrent reciprocal right-swipe requests (1 on 2 and 2 on 1, each a
thread of the handler's own store operations) so that both existence
checks run before either insert produces TWO Match rows for the canonical
pair (1,2), and both requests report a fresh match id — two NewMatch
winners, no AlreadyMatched — contradicting the claimed at-most-one-Match
outcome. -/
theorem swipe_race_two_matches :
    ((runSched [0, 1, 0, 1, 0, 1, 0, 1]
        [(⟨1, 2⟩, .start), (⟨2, 1⟩, .start)] ⟨[], [], [], 1, 1⟩).1 =
      [(⟨1, 2⟩, .done ⟨200, some true, some 1⟩),
       (⟨2, 1⟩, .done ⟨200, some true, some 2⟩)]) ∧
    (((runSched [0, 1, 0, 1, 0, 1, 0, 1]
        [(⟨1, 2⟩, .start), (⟨2, 1⟩, .start)] ⟨[], [], [], 1, 1⟩).2.«matches».filter
          fun m => m.user1_id == 1 && m.user2_id == 2).length = 2) := by
  decide

/-- C6: a valid left swipe only appends the ledger event: the response is
200 with `matched: false` and no `matchId`, the reciprocity branch is not
taken, and the `matches` table is untouched. -/
theorem postSwipe_left_never_matches (req : SwipeReq) (db : DB) (s t : Nat)
    (hs : req.swiperId = some s) (ht : req.targetId = some t)
    (hd : req.direction = some "left")
    (hs0 : s ≠ 0) (ht0 : t ≠ 0) (hst : s ≠ t) :
    postSwipe req db = (⟨200, some false, none⟩, insertSwipe s t "left" db) ∧
    (postSwipe req db).2.«matches» = db.«matches» := by
  have hmain : postSwipe req db = (⟨200, some false, none⟩, insertSwipe s t "left" db) := by
    unfold postSwipe
    simp [hs, ht, hd, truthyNum, isValidDirection, hs0, ht0, hst]
  exact ⟨hmain, by rw [hmain]; simp [insertSwipe]⟩

/-- Witness for C6: user 4 swipes left on user 2 over a store where user
2 already swiped right on user 4; still no match. -/
theorem postSwipe_left_never_matches_witness :
    postSwipe ⟨some 4, some 2, some "left"⟩ ⟨[⟨2, 4, "right"⟩], [], [], 1, 1⟩ =
      (⟨200, some false, none⟩,
       insertSwipe 4 2 "left" ⟨[⟨2, 4, "right"⟩], [], [], 1, 1⟩) ∧
    (postSwipe ⟨some 4, some 2, some "left"⟩ ⟨[⟨2, 4, "right"⟩], [], [], 1, 1⟩).2.«matches» =
      (⟨[⟨2, 4, "right"⟩], [], [], 1, 1⟩ : DB).«matches» :=
  postSwipe_left_never_matches _ _ 4 2 rfl rfl rfl
    (by decide) (by decide) (by decide)

/-- C9: every valid swipe request appends exactly one event to the swipe
ledger — whatever the direction and whatever the reciprocity and match
state — and every prior ledger event survives unchanged. -/
theorem postSwipe_appends_one_event (req : SwipeReq) (db : DB) (s t : Nat) (d : String)
    (hs : req.swiperId = some s) (ht : req.targetId = some t)
    (hd : req.direction = some d)
    (hs0 : s ≠ 0) (ht0 : t ≠ 0) (hdv : d = "left" ∨ d = "right") (hst : s ≠ t) :
    (postSwipe req db).2.swipes = db.swipes ++ [⟨s, t, d⟩] := by
  unfold postSwipe
  rcases hdv with hdl | hdr
  · subst hdl
    simp [hs, ht, hd, truthyNum, isValidDirection, hs0, ht0, hst, insertSwipe]
  · subst hdr
    simp only [hs, ht, hd, truthyNum, isValidDirection, Option.getD_some]
    have hne : (s == t) = false := by simp [hst]
    simp only [hne, Bool.false_eq_true, if_false]
    have hs0b : (s != 0) = true := by simp [hs0]
    have ht0b : (t != 0) = true := by simp [ht0]
    simp only [hs0b, ht0b]
    cases hrev : reverseRightExists s t (insertSwipe s t "right" db) with
    | false => simp [hrev, insertSwipe]
    | true =>
      cases hfm : findMatch (orderPair s t).1 (orderPair s t).2 (insertSwipe s t "right" db) with
      | none => simp [hrev, hfm, insertSwipe, insertMatch]
      | some m => simp [hrev, hfm, insertSwipe]

/-- Witness for C9: a valid right swipe that creates a match still
appends exactly its one ledger event. -/
theorem postSwipe_appends_one_event_witness :
    (postSwipe ⟨some 9, some 5, some "right"⟩
        ⟨[⟨5, 9, "right"⟩], [], [], 1, 1⟩).2.swipes =
      [⟨5, 9, "right"⟩] ++ [⟨9, 5, "right"⟩] :=
  postSwipe_appends_one_event _ _ 9 5 "right" rfl rfl rfl
    (by decide) (by decide) (Or.inr rfl) (by decide)

/-- C10: `POST /swipe` tests field presence by JavaScript truthiness, so
`swiperId = 0` or `targetId = 0` is rejected with 400 and no write, even
though 0 is a number; and any non-400 outcome means the direction was
exactly the string "left" or "right". -/
theorem postSwipe_truthiness_validation :
    (∀ (req : SwipeReq) (db : DB), req.swiperId = some 0 →
        postSwipe req db = (⟨400, none, none⟩, db)) ∧
    (∀ (req : SwipeReq) (db : DB), req.targetId = some 0 →
        postSwipe req db = (⟨400, none, none⟩, db)) ∧
    (∀ (req : SwipeReq) (db : DB), (postSwipe req db).1.status ≠ 400 →
        req.direction = some "left" ∨ req.direction = some "right") := by
  refine ⟨?_, ?_, ?_⟩
  · intro req db h
    unfold postSwipe
    simp [h, truthyNum]
  · intro req db h
    unfold postSwipe
    cases hs : req.swiperId with
    | none => simp [truthyNum]
    | some n => simp [h, truthyNum]
  · intro req db h
    cases hdo : req.direction with
    | none =>
      exfalso; apply h
      unfold postSwipe
      simp [hdo, isValidDirection]
    | some d =>
      by_cases hv : isValidDirection (some d) = true
      · have hd2 : d = "left" ∨ d = "right" := by simpa [isValidDirection] using hv
        rcases hd2 with h1 | h1
        · exact Or.inl (by rw [h1])
        · exact Or.inr (by rw [h1])
      · exfalso; apply h
        have hv' : isValidDirection (some d) = false := by
          rw [← Bool.not_eq_true]; exact hv
        unfold postSwipe
        simp [hdo, hv']

/-- Witness for C10: a swipe by user 0 is rejected as a missing field,
and a capitalised direction never reaches a 200. -/
theorem postSwipe_truthiness_validation_witness :
    postSwipe ⟨some 0, some 5, some "right"⟩ ⟨[], [], [], 1, 1⟩ =
      (⟨400, none, none⟩, ⟨[], [], [], 1, 1⟩) ∧
    postSwipe ⟨some 2, some 0, some "right"⟩ ⟨[], [], [], 1, 1⟩ =
      (⟨400, none, none⟩, ⟨[], [], [], 1, 1⟩) := by
  constructor
  · exact postSwipe_truthiness_validation.1 ⟨some 0, some 5, some "right"⟩ _ rfl
  · exact postSwipe_truthiness_validation.2.1 ⟨some 2, some 0, some "right"⟩ _ rfl

/-- C7: `userInMatch` is exact — true iff a `matches` row with that id
has the user as `user1_id` or `user2_id` (false for any third user and
when no such match exists) — and when it denies, both `GET /messages`
and `POST /messages` answer 403 (forbidden), never a not-found. -/
theorem userInMatch_exact_and_denial_is_403 :
    (∀ (db : DB) (mid uid : Nat),
        userInMatch mid uid db = true ↔
          ∃ m ∈ db.«matches», m.id = mid ∧ (m.user1_id = uid ∨ m.user2_id = uid)) ∧
    (∀ (req : MsgsGetReq) (db : DB) (mid uid : Nat),
        req.matchId = some mid → req.userId = some uid → mid ≠ 0 → uid ≠ 0 →
        userInMatch mid uid db = false →
        getMessagesStatus req db = .forbidden) ∧
    (∀ (req : MsgsPostReq) (now : Nat) (db : DB) (mid sid : Nat) (c : String),
        req.matchId = some mid → req.senderId = some sid → req.content = some c →
        mid ≠ 0 → sid ≠ 0 → c ≠ "" →
        userInMatch mid sid db = false →
        postMessages req now db = (.forbidden, db)) := by
  refine ⟨?_, ?_, ?_⟩
  · intro db mid uid
    unfold userInMatch
    rw [List.any_eq_true]
    constructor
    · rintro ⟨m, hm, hb⟩
      simp only [Bool.and_eq_true, Bool.or_eq_true, beq_iff_eq] at hb
      exact ⟨m, hm, hb⟩
    · rintro ⟨m, hm, hid, hor⟩
      refine ⟨m, hm, ?_⟩
      simp only [Bool.and_eq_true, Bool.or_eq_true, beq_iff_eq]
      exact ⟨hid, hor⟩
  · intro req db mid uid hm hu hmid0 huid0 hdeny
    unfold getMessagesStatus
    simp [hm, hu, truthyNum, hmid0, huid0, hdeny]
  · intro req now db mid sid c hm hs hc hmid0 hsid0 hc0 hdeny
    unfold postMessages
    simp [hm, hs, hc, truthyNum, truthyStr, hmid0, hsid0, hc0, hdeny]

/-- Witness for C7 over a store whose single match (id 1) links users 1
and 2: user 2 is a member; the outsider user 7 is denied and both chat
endpoints answer 403. -/
theorem userInMatch_exact_and_denial_is_403_witness :
    (∃ m ∈ (⟨[], [⟨1, 1, 2⟩], [], 2, 1⟩ : DB).«matches»,
        m.id = 1 ∧ (m.user1_id = 2 ∨ m.user2_id = 2)) ∧
    getMessagesStatus ⟨some 1, some 7⟩ ⟨[], [⟨1, 1, 2⟩], [], 2, 1⟩ = .forbidden ∧
    postMessages ⟨some 1, some 7, some "hi"⟩ 5 ⟨[], [⟨1, 1, 2⟩], [], 2, 1⟩ =
      (.forbidden, ⟨[], [⟨1, 1, 2⟩], [], 2, 1⟩) := by
  refine ⟨?_, ?_, ?_⟩
  · exact (userInMatch_exact_and_denial_is_403.1 ⟨[], [⟨1, 1, 2⟩], [], 2, 1⟩ 1 2).mp
      (by decide)
  · exact userInMatch_exact_and_denial_is_403.2.1 ⟨some 1, some 7⟩ _ 1 7 rfl rfl
      (by decide) (by decide) (by decide)
  · exact userInMatch_exact_and_denial_is_403.2.2 ⟨some 1, some 7, some "hi"⟩ 5 _ 1 7 "hi"
      rfl rfl rfl (by decide) (by decide) (by decide) (by decide)

/-- C2 counterexample: the store already holds match {id 1, users 1-2}
and the reciprocal right swipe; user 1 swiping right on user 2 again gets
200 with `matched: true` but NO `matchId` field, although the claim says
the id of the existing match is present in the AlreadyMatched response. -/
theorem alreadyMatched_response_lacks_matchId :
    (postSwipe ⟨some 1, some 2, some "right"⟩
        ⟨[⟨2, 1, "right"⟩], [⟨1, 1, 2⟩], [], 2, 1⟩).1 =
      ⟨200, some true, none⟩ ∧
    ((postSwipe ⟨some 1, some 2, some "right"⟩
        ⟨[⟨2, 1, "right"⟩], [⟨1, 1, 2⟩], [], 2, 1⟩).1.matchId = none) := by
  decide

/-- C2 amended: for every valid swipe request, the 200 body reflects the
outcome, except that the AlreadyMatched response carries no `matchId`:
NotRight and NoReciprocity answer `matched: false`; NewMatch answers
`matched: true` with the fresh match id; AlreadyMatched answers
`matched: true` with the `matchId` field absent. -/
theorem postSwipe_response_reflects_outcome (req : SwipeReq) (db : DB)
    (s t : Nat) (d : String)
    (hs : req.swiperId = some s) (ht : req.targetId = some t)
    (hd : req.direction = some d)
    (hs0 : s ≠ 0) (ht0 : t ≠ 0) (hdv : d = "left" ∨ d = "right") (hst : s ≠ t) :
    (d = "left" → (postSwipe req db).1 = ⟨200, some false, none⟩) ∧
    (d = "right" → reverseRightExists s t (insertSwipe s t d db) = false →
        (postSwipe req db).1 = ⟨200, some false, none⟩) ∧
    (d = "right" → reverseRightExists s t (insertSwipe s t d db) = true →
        findMatch (orderPair s t).1 (orderPair s t).2 db = none →
        (postSwipe req db).1 = ⟨200, some true, some db.nextMatchId⟩) ∧
    (∀ mid : Nat, d = "right" → reverseRightExists s t (insertSwipe s t d db) = true →
        findMatch (orderPair s t).1 (orderPair s t).2 db = some mid →
        (postSwipe req db).1 = ⟨200, some true, none⟩) := by
  refine ⟨?_, ?_, ?_, ?_⟩
  · intro hdl
    subst hdl
    unfold postSwipe
    simp [hs, ht, hd, truthyNum, isValidDirection, hs0, ht0, hst]
  · intro hdr hrev
    subst hdr
    unfold postSwipe
    simp [hs, ht, hd, truthyNum, isValidDirection, hs0, ht0, hst, hrev]
  · intro hdr hrev hfm
    subst hdr
    unfold postSwipe
    simp [hs, ht, hd, truthyNum, isValidDirection, hs0, ht0, hst, hrev,
      show findMatch (orderPair s t).1 (orderPair s t).2
          (insertSwipe s t "right" db) = none from hfm, insertMatch]
    rfl
  · intro mid hdr hrev hfm
    subst hdr
    unfold postSwipe
    simp [hs, ht, hd, truthyNum, isValidDirection, hs0, ht0, hst, hrev,
      show findMatch (orderPair s t).1 (orderPair s t).2
          (insertSwipe s t "right" db) = some mid from hfm]

/-- Witness for the amended C2: user 9 swipes right on user 5 whose right
swipe is on record and no match exists yet — the response is 200,
`matched: true`, `matchId: 1` (the fresh id). -/
theorem postSwipe_response_reflects_outcome_witness :
    (postSwipe ⟨some 9, some 5, some "right"⟩
        ⟨[⟨5, 9, "right"⟩], [], [], 1, 1⟩).1 = ⟨200, some true, some 1⟩ :=
  (postSwipe_response_reflects_outcome ⟨some 9, some 5, some "right"⟩
      ⟨[⟨5, 9, "right"⟩], [], [], 1, 1⟩ 9 5 "right" rfl rfl rfl
      (by decide) (by decide) (Or.inr rfl) (by decide)).2.2.1
    rfl (by decide) (by decide)

/-- The ledger INSERT leaves the `matches` table unread and unwritten, so
the match SELECT sees the same rows before and after it. -/
theorem findMatch_insertSwipe (u1 u2 s t : Nat) (d : String) (db : DB) :
    findMatch u1 u2 (insertSwipe s t d db) = findMatch u1 u2 db := rfl

/-- The match SELECT comes back empty exactly when no row stores the
ordered pair. -/
theorem findMatch_eq_none_iff (u1 u2 : Nat) (db : DB) :
    findMatch u1 u2 db = none ↔
      ∀ m ∈ db.«matches», ¬(m.user1_id = u1 ∧ m.user2_id = u2) := by
  unfold findMatch
  rw [Option.map_eq_none', List.find?_eq_none]
  constructor
  · intro h m hm
    have := h m hm
    simpa using this
  · intro h m hm
    have := h m hm
    simpa using this

/-- For distinct ids `orderPair` strictly orders its output. -/
theorem orderPair_fst_lt_snd (a b : Nat) (hab : a ≠ b) :
    (orderPair a b).1 < (orderPair a b).2 := by
  unfold orderPair
  rcases Nat.lt_or_ge a b with h | h
  · simp only [if_pos h]
    exact h
  · have hba : b < a := Nat.lt_of_le_of_ne h (fun e => hab e.symm)
    have hna : ¬ a < b := Nat.not_lt.mpr (Nat.le_of_lt hba)
    simpa [hna] using hba

/-- Every run of `POST /swipe` either leaves the `matches` table alone,
or — only when the existence check for the canonical pair came back
empty — appends the single canonical row for the swipe's pair. -/
theorem postSwipe_matches_cases (req : SwipeReq) (db : DB) :
    (postSwipe req db).2.«matches» = db.«matches» ∨
    ∃ s t : Nat,
      req.swiperId = some s ∧ req.targetId = some t ∧ s ≠ t ∧
      findMatch (orderPair s t).1 (orderPair s t).2 db = none ∧
      (postSwipe req db).2.«matches» =
        db.«matches» ++ [⟨db.nextMatchId, (orderPair s t).1, (orderPair s t).2⟩] := by
  obtain ⟨os, ot, od⟩ := req
  cases os with
  | none => exact Or.inl (by unfold postSwipe; simp [truthyNum])
  | some s =>
  cases ot with
  | none => exact Or.inl (by unfold postSwipe; simp [truthyNum])
  | some t =>
  by_cases hs0 : s = 0
  · exact Or.inl (by unfold postSwipe; simp [truthyNum, hs0])
  by_cases ht0 : t = 0
  · exact Or.inl (by unfold postSwipe; simp [truthyNum, ht0])
  by_cases hvd : isValidDirection od = true
  case neg =>
    refine Or.inl ?_
    unfold postSwipe
    have hvd' : isValidDirection od = false := by
      rw [← Bool.not_eq_true]; exact hvd
    simp [hvd']
  case pos =>
  by_cases hst : s = t
  · exact Or.inl (by unfold postSwipe; simp [truthyNum, hs0, ht0, hvd, hst])
  by_cases hdr : od.getD "" = "right"
  case neg =>
    refine Or.inl ?_
    unfold postSwipe
    simp [truthyNum, hs0, ht0, hvd, hst, hdr, insertSwipe]
  case pos =>
  by_cases hrev : reverseRightExists s t (insertSwipe s t (od.getD "") db) = true
  case neg =>
    refine Or.inl ?_
    unfold postSwipe
    have hrev' : reverseRightExists s t (insertSwipe s t (od.getD "") db) = false := by
      rw [← Bool.not_eq_true]; exact hrev
    rw [hdr] at hrev'
    simp [truthyNum, hs0, ht0, hvd, hst, hdr, hrev']
    rfl
  case pos =>
  rw [hdr] at hrev
  cases hfm : findMatch (orderPair s t).1 (orderPair s t).2 db with
  | some mid =>
    refine Or.inl ?_
    unfold postSwipe
    simp [truthyNum, hs0, ht0, hvd, hst, hdr, hrev,
      show findMatch (orderPair s t).1 (orderPair s t).2
          (insertSwipe s t "right" db) = some mid from hfm]
    rfl
  | none =>
    refine Or.inr ⟨s, t, rfl, rfl, hst, hfm, ?_⟩
    unfold postSwipe
    simp [truthyNum, hs0, ht0, hvd, hst, hdr, hrev, insertMatch,
      show findMatch (orderPair s t).1 (orderPair s t).2
          (insertSwipe s t "right" db) = none from hfm]
    rfl

/-- Appending a fresh, canonically ordered row for a pair with no
existing row preserves the Match-table invariant. -/
theorem matchesInvariant_append (l : List MatchRow) (id u1 u2 : Nat)
    (hl : matchesInvariant l) (hord : u1 < u2)
    (hnone : ∀ m ∈ l, ¬(m.user1_id = u1 ∧ m.user2_id = u2)) :
    matchesInvariant (l ++ [⟨id, u1, u2⟩]) := by
  obtain ⟨hord_all, hcount⟩ := hl
  constructor
  · intro m hm
    rcases List.mem_append.mp hm with h | h
    · exact hord_all m h
    · have : m = ⟨id, u1, u2⟩ := List.mem_singleton.mp h
      rw [this]
      exact hord
  · intro a b
    rw [List.filter_append, List.length_append]
    by_cases hc : inPairB ⟨id, u1, u2⟩ a b = true
    · have hzero : (l.filter fun m => inPairB m a b) = [] := by
        rw [List.filter_eq_nil_iff]
        intro m hm
        intro hmp
        have hmlt := hord_all m hm
        simp only [inPairB, Bool.or_eq_true, Bool.and_eq_true, beq_iff_eq] at hc hmp
        rcases hc with ⟨ha, hb⟩ | ⟨ha, hb⟩ <;> rcases hmp with ⟨h1, h2⟩ | ⟨h1, h2⟩
        · exact hnone m hm ⟨h1.trans ha.symm, h2.trans hb.symm⟩
        · omega
        · omega
        · exact hnone m hm ⟨h1.trans ha.symm, h2.trans hb.symm⟩
      rw [hzero]
      simp [hc]
    · have hzero : ([(⟨id, u1, u2⟩ : MatchRow)].filter fun m => inPairB m a b) = [] := by
        rw [List.filter_eq_nil_iff]
        intro m hm
        have hmx : m = ⟨id, u1, u2⟩ := List.mem_singleton.mp hm
        rw [hmx]
        exact hc
      rw [hzero]
      simpa using hcount a b

/-- C3: in sequential execution the at-most-one-Match-per-pair invariant
is preserved by every `POST /swipe` call, and once a Match row exists for
a pair, a later swipe between those users never writes a second row; when
such a call detects reciprocity it answers `matched: true` for the
existing match. -/
theorem match_uniqueness_sequential (req : SwipeReq) (db : DB)
    (hinv : matchInvariant db) :
    matchInvariant (postSwipe req db).2 ∧
    ∀ (s t : Nat) (d : String) (m : MatchRow),
      req.swiperId = some s → req.targetId = some t → req.direction = some d →
      s ≠ 0 → t ≠ 0 → s ≠ t →
      m ∈ db.«matches» → inPairB m s t = true →
      (postSwipe req db).2.«matches» = db.«matches» ∧
      (d = "right" → reverseRightExists s t (insertSwipe s t d db) = true →
        (postSwipe req db).1 = ⟨200, some true, none⟩) := by
  have hpair : ∀ (s t : Nat) (m : MatchRow), s ≠ t →
      m ∈ db.«matches» → inPairB m s t = true →
      findMatch (orderPair s t).1 (orderPair s t).2 db ≠ none := by
    intro s t m hst hm hp hnone
    have hord := hinv.1 m hm
    rw [findMatch_eq_none_iff] at hnone
    simp only [inPairB, Bool.or_eq_true, Bool.and_eq_true, beq_iff_eq] at hp
    have hkey : m.user1_id = (orderPair s t).1 ∧ m.user2_id = (orderPair s t).2 := by
      unfold orderPair
      rcases hp with ⟨h1, h2⟩ | ⟨h1, h2⟩
      · have hlt : s < t := by rw [← h1, ← h2]; exact hord
        simp [hlt, h1, h2]
      · have hlt : t < s := by rw [← h1, ← h2]; exact hord
        have hns : ¬ s < t := Nat.not_lt.mpr (Nat.le_of_lt hlt)
        simp [hns, h1, h2]
    exact hnone m hm hkey
  constructor
  · rcases postSwipe_matches_cases req db with h | ⟨s, t, hs, ht, hst, hfm, h⟩
    · unfold matchInvariant
      rw [h]
      exact hinv
    · unfold matchInvariant
      rw [h]
      refine matchesInvariant_append _ _ _ _ hinv (orderPair_fst_lt_snd s t hst) ?_
      rw [findMatch_eq_none_iff] at hfm
      exact hfm
  · intro s t d m hs ht hd hs0 ht0 hst hm hp
    have hfm : findMatch (orderPair s t).1 (orderPair s t).2 db ≠ none :=
      hpair s t m hst hm hp
    constructor
    · rcases postSwipe_matches_cases req db with h | ⟨s', t', hs', ht', hst', hfm', h⟩
      · exact h
      · rw [hs] at hs'
        rw [ht] at ht'
        have es : s' = s := (Option.some_inj.mp hs').symm
        have et : t' = t := (Option.some_inj.mp ht').symm
        rw [es, et] at hfm'
        exact absurd hfm' hfm
    · intro hdr hrev
      subst hdr
      obtain ⟨mid, hfmid⟩ := Option.ne_none_iff_exists'.mp hfm
      unfold postSwipe
      simp [hs, ht, hd, truthyNum, isValidDirection, hs0, ht0, hst, hrev,
        show findMatch (orderPair s t).1 (orderPair s t).2
            (insertSwipe s t "right" db) = some mid from hfmid]

/-- Witness for C3: with the match {id 1, users 5-9} and both reciprocal
right swipes on record, a repeat right swipe of 5 on 9 preserves the
invariant, writes no second row and answers `matched: true`. -/
theorem match_uniqueness_sequential_witness :
    (postSwipe ⟨some 5, some 9, some "right"⟩
        ⟨[⟨5, 9, "right"⟩, ⟨9, 5, "right"⟩], [⟨1, 5, 9⟩], [], 2, 1⟩).2.«matches» =
      (⟨[⟨5, 9, "right"⟩, ⟨9, 5, "right"⟩], [⟨1, 5, 9⟩], [], 2, 1⟩ : DB).«matches» ∧
    (postSwipe ⟨some 5, some 9, some "right"⟩
        ⟨[⟨5, 9, "right"⟩, ⟨9, 5, "right"⟩], [⟨1, 5, 9⟩], [], 2, 1⟩).1 =
      ⟨200, some true, none⟩ := by
  have hinv : matchInvariant ⟨[⟨5, 9, "right"⟩, ⟨9, 5, "right"⟩], [⟨1, 5, 9⟩], [], 2, 1⟩ := by
    constructor
    · decide
    · intro a b
      exact Nat.le_trans (List.length_filter_le _ _) (by decide)
  have h := (match_uniqueness_sequential ⟨some 5, some 9, some "right"⟩
      ⟨[⟨5, 9, "right"⟩, ⟨9, 5, "right"⟩], [⟨1, 5, 9⟩], [], 2, 1⟩ hinv).2
      5 9 "right" ⟨1, 5, 9⟩ rfl rfl rfl (by decide) (by decide) (by decide)
      (by decide) (by decide)
  exact ⟨h.1, h.2 rfl (by decide)⟩

/-- Coherence of the interleaving model: a single right-swipe thread run
to completion with no interleaving produces exactly the response and
state of the sequential handler — the thread program is the handler's own
sequence of store operations. -/
theorem runSched_single_eq_postSwipe (s t : Nat) (db : DB)
    (hs0 : s ≠ 0) (ht0 : t ≠ 0) (hst : s ≠ t) :
    runSched [0, 0, 0, 0, 0] [(⟨s, t⟩, .start)] db =
      ([(⟨s, t⟩, .done (postSwipe ⟨some s, some t, some "right"⟩ db).1)],
       (postSwipe ⟨some s, some t, some "right"⟩ db).2) := by
  unfold postSwipe
  simp only [truthyNum, isValidDirection, Option.getD_some]
  have hne : (s == t) = false := by simp [hst]
  have hs0b : (s != 0) = true := by simp [hs0]
  have ht0b : (t != 0) = true := by simp [ht0]
  simp only [hne, hs0b, ht0b]
  cases hrev : reverseRightExists s t (insertSwipe s t "right" db) with
  | false =>
    simp [runSched, stepThreadAt, stepSwipe, hrev]
  | true =>
    cases hfm : findMatch (orderPair s t).1 (orderPair s t).2 (insertSwipe s t "right" db) with
    | none => simp [runSched, stepThreadAt, stepSwipe, hrev, hfm]
    | some mid => simp [runSched, stepThreadAt, stepSwipe, hrev, hfm]

/-- C8 counterexample: two messages of match 1 share `sent_at = 10`; the
query orders only by `sent_at`, so the reversed-id sequence is a
permitted result of `GET /messages` — yet it violates the id (insertion
order) tiebreak the claim asserts.  The ordering of equal-timestamp
messages is therefore not guaranteed by the code. -/
theorem getMessages_tiebreak_not_guaranteed :
    getMessagesBody ⟨some 1, some 5⟩
      ⟨[], [⟨1, 5, 9⟩], [⟨1, 1, 5, "hi", 10⟩, ⟨2, 1, 9, "hello", 10⟩], 2, 3⟩
      [⟨2, 1, 9, "hello", 10⟩, ⟨1, 1, 5, "hi", 10⟩] ∧
    ¬ specOrderedSentAtThenId
      [⟨2, 1, 9, "hello", 10⟩, ⟨1, 1, 5, "hi", 10⟩] := by
  constructor
  · refine ⟨by decide, ?_, ?_⟩
    · decide
    · decide
  · intro h
    have := List.rel_of_sorted_cons h ⟨1, 1, 5, "hi", 10⟩ (by decide)
    rcases this with h1 | ⟨h1, h2⟩
    · exact absurd h1 (by decide)
    · exact absurd h2 (by decide)

/-- C8 amended: a permitted result of an authorized `GET /messages` call
contains exactly the match's messages (same members and multiplicities as
the rows with that `match_id`) in non-decreasing `sent_at` order; being a
pure read of `(req, db)`, it retains no cursor state.  The relative order
of messages with equal `sent_at` is NOT guaranteed: the query has no `id`
tiebreak. -/
theorem getMessages_sorted_complete (req : MsgsGetReq) (db : DB) (mid : Nat)
    (rows : List MessageRow) (hm : req.matchId = some mid)
    (hbody : getMessagesBody req db rows) :
    (∀ m : MessageRow, m ∈ rows ↔ (m ∈ db.messages ∧ m.match_id = mid)) ∧
    (∀ m : MessageRow, rows.count m = (msgsForMatch mid db).count m) ∧
    (∀ i j : Fin rows.length, (i : Nat) ≤ (j : Nat) →
        (rows.get i).sent_at ≤ (rows.get j).sent_at) := by
  obtain ⟨hok, hperm, hsort⟩ := hbody
  rw [hm] at hperm
  refine ⟨?_, ?_, ?_⟩
  · intro m
    rw [hperm.mem_iff]
    unfold msgsForMatch
    rw [List.mem_filter]
    simp
  · intro m
    exact hperm.count_eq m
  · intro i j hij
    rcases Nat.eq_or_lt_of_le hij with he | hlt
    · have : i = j := Fin.ext he
      rw [this]
    · have hp := (List.pairwise_iff_get.mp hsort) i j hlt
      exact hp

/-- Witness for the amended C8: the id-ordered sequence is also a
permitted result over the same store, and its multiplicities match the
match's rows. -/
theorem getMessages_sorted_complete_witness :
    (([⟨1, 1, 5, "hi", 10⟩, ⟨2, 1, 9, "hello", 10⟩] : List MessageRow).count
        (⟨1, 1, 5, "hi", 10⟩ : MessageRow) =
      (msgsForMatch 1
          ⟨[], [⟨1, 5, 9⟩], [⟨1, 1, 5, "hi", 10⟩, ⟨2, 1, 9, "hello", 10⟩], 2, 3⟩).count
        (⟨1, 1, 5, "hi", 10⟩ : MessageRow)) ∧
    ((⟨2, 1, 9, "hello", 10⟩ : MessageRow) ∈
        ([⟨1, 1, 5, "hi", 10⟩, ⟨2, 1, 9, "hello", 10⟩] : List MessageRow) ↔
      ((⟨2, 1, 9, "hello", 10⟩ : MessageRow) ∈
          (⟨[], [⟨1, 5, 9⟩], [⟨1, 1, 5, "hi", 10⟩, ⟨2, 1, 9, "hello", 10⟩], 2, 3⟩ : DB).messages ∧
        (⟨2, 1, 9, "hello", 10⟩ : MessageRow).match_id = 1)) := by
  have h := getMessages_sorted_complete ⟨some 1, some 5⟩
    ⟨[], [⟨1, 5, 9⟩], [⟨1, 1, 5, "hi", 10⟩, ⟨2, 1, 9, "hello", 10⟩], 2, 3⟩ 1
    [⟨1, 1, 5, "hi", 10⟩, ⟨2, 1, 9, "hello", 10⟩] rfl
    ⟨by decide, by decide, by decide⟩
  exact ⟨h.2.1 _, h.1 _⟩

end Heart
